import Mathlib

/-!
Shallow embedding of the go-tangra-backup orchestrator core.

Sources embedded:
- src/unnamed/part_002            (crypto envelope: encryptData / DecryptData)
- src/internal/service/storage.go (BackupStorage: save/load module backups,
                                   gzip helpers, unmarshalWithFallback,
                                   SaveFullBackup payload files)
- src/internal/service/orchestrator_service.go
                                  (CreateModuleBackup, CreateFullBackup,
                                   RestoreFullBackup, normalizePagination and
                                   the ListBackups / ListFullBackups pagination)

Modelling conventions: Go byte slices and Go strings used as byte payloads are
`List Nat`; filesystem effects become explicit state passing over association
lists; RPC and parser outcomes are explicit arguments (oracles); random values
drawn inside a function (uuid, salt, nonce) are explicit arguments; Go int32
arithmetic wraps through `wrap32`. The Go standard-library primitives that the
repository calls (AES-GCM, PBKDF2, gzip) are modelled as ideal injective
primitives satisfying their documented contracts; everything the repository
itself computes (envelope layout, length checks, file naming, password
branching, aggregation, pagination) is translated from the source.
-/

namespace TangraBackup

/-- Go byte slices (and Go strings used as byte payloads) are lists of Nat. -/
abbrev Bytes := List Nat

-- ---------------------------------------------------------------------------
-- Crypto constants and primitives (src/unnamed/part_002)
-- ---------------------------------------------------------------------------

def pbkdf2Iterations : Nat := 600000

def saltSize : Nat := 32

def keySize : Nat := 32

/-- AES-GCM standard nonce size. -/
def nonceSize : Nat := 12

/-- A derived AES key. Model of the output of Go crypto/pbkdf2: the key is a
pure function of the password bytes and the salt, idealized as the pair itself
(PBKDF2-HMAC-SHA256 with 600000 iterations is collision free in practice, so
distinct passwords or salts give distinct keys). -/
structure DerivedKey where
  password : Bytes
  salt : Bytes
deriving DecidableEq

/-- Model of pbkdf2.Key(sha256.New, password, salt, pbkdf2Iterations, keySize)
as called by encryptData and DecryptData in src/unnamed/part_002. -/
def pbkdf2Key (password salt : Bytes) : DerivedKey := ⟨password, salt⟩

/-- Injective byte encoding of a derived key, used by the ideal AEAD model:
length-prefixed password followed by the salt. -/
def keyBytes (k : DerivedKey) : Bytes :=
  k.password.length :: (k.password ++ k.salt)

/-- Model of Go crypto/cipher AES-GCM Seal with empty associated data: an
ideal authenticated cipher. The "ciphertext with tag" is the length-prefixed
plaintext followed by an authenticator binding the key and the nonce. -/
def gcmSeal (key : DerivedKey) (nonce pt : Bytes) : Bytes :=
  pt.length :: (pt ++ keyBytes key ++ nonce)

/-- Model of Go crypto/cipher AES-GCM Open: succeeds exactly on a ciphertext
sealed with the same key and nonce (tag verification); any mismatch fails. -/
def gcmOpen (key : DerivedKey) (nonce ct : Bytes) : Option Bytes :=
  match ct with
  | [] => none
  | n :: rest =>
    if rest.length = n + (keyBytes key ++ nonce).length ∧
        rest.drop n = keyBytes key ++ nonce then
      some (rest.take n)
    else
      none

/-- encryptData from src/unnamed/part_002: output format
salt(32) -- nonce(12) -- ciphertext+GCM-tag. The salt and nonce, freshly drawn
from the RNG in the source, are explicit arguments here. -/
def encryptData (data password salt nonce : Bytes) : Bytes :=
  salt ++ nonce ++ gcmSeal (pbkdf2Key password salt) nonce data

/-- DecryptData from src/unnamed/part_002: rejects envelopes shorter than
saltSize + nonceSize + 1 = 45 bytes, then splits salt, nonce and ciphertext
at the fixed offsets and opens with the password-derived key. -/
def DecryptData (encrypted : Bytes) (password : Bytes) : Except String Bytes :=
  if encrypted.length < saltSize + nonceSize + 1 then
    .error "encrypted data too short"
  else
    let salt := encrypted.take saltSize
    let nonce := (encrypted.drop saltSize).take nonceSize
    let ciphertext := encrypted.drop (saltSize + nonceSize)
    match gcmOpen (pbkdf2Key password salt) nonce ciphertext with
    | some pt => .ok pt
    | none => .error "decryption failed (wrong password or corrupted data)"

-- ---------------------------------------------------------------------------
-- Gzip helpers (gzipCompress / gzipDecompress in storage.go)
-- ---------------------------------------------------------------------------

/-- Model of gzipCompress in src/internal/service/storage.go (a single-shot
wrapper over Go compress/gzip): idealized as an injective framing with
byte-exact round-trip, which is the contract the code relies on. -/
def gzipCompress (data : Bytes) : Bytes := data.length :: data

/-- Model of gzipDecompress in src/internal/service/storage.go: inverts
gzipCompress and fails on anything that is not a valid frame. -/
def gzipDecompress (data : Bytes) : Except String Bytes :=
  match data with
  | [] => .error "gzip: invalid header"
  | n :: rest => if rest.length = n then .ok rest else .error "gzip: invalid header"

-- ---------------------------------------------------------------------------
-- Data model (gen/go/backup/service/v1 messages as used by the core)
-- ---------------------------------------------------------------------------

/-- ModuleTarget message: addresses one participating module. -/
structure ModuleTarget where
  moduleId : String
  grpcEndpoint : String
deriving DecidableEq

/-- ExportResult from src/internal/service/client (unnamed part): the result
of a dynamic ExportBackup call. -/
structure ExportResult where
  data : Bytes
  moduleName : String
  version : String
  tenantID : Nat
  entityCounts : List (String × Int)
deriving DecidableEq

/-- BackupInfo message (module backup metadata). Timestamps are modelled as
Nat instants. -/
structure BackupInfo where
  id : String
  moduleId : String
  description : String
  tenantId : Nat
  fullBackup : Bool
  status : String
  sizeBytes : Nat
  entityCounts : List (String × Int)
  createdAt : Nat
  createdBy : String
  version : String
  encrypted : Bool
  warnings : List String
deriving DecidableEq

/-- FullBackupInfo message (full backup manifest). -/
structure FullBackupInfo where
  id : String
  description : String
  tenantId : Nat
  fullBackup : Bool
  status : String
  totalSizeBytes : Nat
  moduleBackups : List BackupInfo
  createdAt : Nat
  createdBy : String
  errors : List String
  encrypted : Bool
deriving DecidableEq

-- ---------------------------------------------------------------------------
-- Module backup storage (storage.go)
-- ---------------------------------------------------------------------------

/-- The files inside modules/backup-id/ on disk: metadata.json plus
data.json.gz (unencrypted) or data.json.gz.enc (encrypted). -/
structure ModuleBackupFiles where
  metadata : Option BackupInfo
  plainFile : Option Bytes
  encFile : Option Bytes
deriving DecidableEq

def emptyFiles : ModuleBackupFiles := ⟨none, none, none⟩

/-- The modules/ directory: backup id to directory contents. -/
abbrev ModuleStore := List (String × ModuleBackupFiles)

def storeLookup (st : ModuleStore) (id : String) : Option ModuleBackupFiles :=
  match st with
  | [] => none
  | (k, v) :: rest => if k = id then some v else storeLookup rest id

def storeInsert (st : ModuleStore) (id : String) (f : ModuleBackupFiles) : ModuleStore :=
  match st with
  | [] => [(id, f)]
  | (k, v) :: rest =>
    if k = id then (k, f) :: rest else (k, v) :: storeInsert rest id f

/-- SaveModuleBackup from src/internal/service/storage.go: gzip the data; if
the password is non-empty, encrypt it, switch the payload filename to the
.enc variant and set info.Encrypted = true; write metadata then payload into
the backup directory. The in-place mutation of info is modelled by returning
the updated metadata alongside the new store. Fresh RNG draws for the
encryption path are explicit arguments. -/
def SaveModuleBackup (st : ModuleStore) (info : BackupInfo) (data : Bytes)
    (password salt nonce : Bytes) : ModuleStore × BackupInfo :=
  let prev := (storeLookup st info.id).getD emptyFiles
  let compressed := gzipCompress data
  if password = [] then
    let files : ModuleBackupFiles :=
      { prev with metadata := some info, plainFile := some compressed }
    (storeInsert st info.id files, info)
  else
    let encrypted := encryptData compressed password salt nonce
    let info2 : BackupInfo := { info with encrypted := true }
    let files : ModuleBackupFiles :=
      { prev with metadata := some info2, encFile := some encrypted }
    (storeInsert st info.id files, info2)

/-- LoadModuleBackupData from src/internal/service/storage.go: the .enc file
is checked first; an encrypted backup with an empty password is rejected;
otherwise decrypt (wrapping errors as the source does) and decompress. -/
def LoadModuleBackupData (st : ModuleStore) (backupID : String)
    (password : Bytes) : Except String Bytes :=
  match storeLookup st backupID with
  | none => .error "read backup data: file does not exist"
  | some files =>
    match files.encFile with
    | some encrypted =>
      if password = [] then
        .error "backup is encrypted: password required"
      else
        match DecryptData encrypted password with
        | .error e => .error ("decrypt backup data: " ++ e)
        | .ok compressed => gzipDecompress compressed
    | none =>
      match files.plainFile with
      | some compressed => gzipDecompress compressed
      | none => .error "read backup data: file does not exist"

-- ---------------------------------------------------------------------------
-- Metadata decoding (unmarshalWithFallback in storage.go)
-- ---------------------------------------------------------------------------

/-- unmarshalWithFallback from src/internal/service/storage.go: try protojson
first (canonical camelCase / RFC3339 representation); on failure reset the
message and retry with encoding/json (legacy snake_case representation);
error only when both fail. The two parsers are pure oracles returning a
freshly decoded message, which subsumes proto.Reset. -/
def unmarshalWithFallback {M : Type} (protojsonParse legacyParse : Bytes → Option M)
    (data : Bytes) : Except String M :=
  match protojsonParse data with
  | some m => .ok m
  | none =>
    match legacyParse data with
    | some m => .ok m
    | none => .error "unmarshal (both protojson and json failed)"

-- ---------------------------------------------------------------------------
-- CreateModuleBackup (orchestrator_service.go, lines 41-90)
-- ---------------------------------------------------------------------------

/-- CreateModuleBackup from src/internal/service/orchestrator_service.go. The
ExportBackup RPC outcome is an explicit oracle argument; the fresh uuid, the
username from the context, the current time and the storage-layer RNG draws
are explicit arguments. On RPC failure the source builds a status="failed"
BackupInfo carrying the error as its only warning and returns it WITHOUT
touching storage (the returned store is the input store); on success it
persists via SaveModuleBackup and returns the (possibly Encrypted-flagged)
record with the updated store. -/
def CreateModuleBackup (exportOutcome : Except String ExportResult)
    (target : ModuleTarget) (tenantId : Option Nat) (description : String)
    (password : Bytes) (backupID username : String) (now : Nat)
    (st : ModuleStore) (salt nonce : Bytes) :
    Except String (BackupInfo × ModuleStore) :=
  match exportOutcome with
  | .error e =>
    .ok ({ id := backupID, moduleId := target.moduleId,
           description := description, tenantId := tenantId.getD 0,
           fullBackup := decide (tenantId = some 0), status := "failed",
           sizeBytes := 0, entityCounts := [], createdAt := now,
           createdBy := username, version := "", encrypted := false,
           warnings := [e] }, st)
  | .ok result =>
    let info : BackupInfo :=
      { id := backupID, moduleId := target.moduleId,
        description := description, tenantId := result.tenantID,
        fullBackup := decide (tenantId = some 0), status := "completed",
        sizeBytes := result.data.length, entityCounts := result.entityCounts,
        createdAt := now, createdBy := username, version := result.version,
        encrypted := false, warnings := [] }
    let saved := SaveModuleBackup st info result.data password salt nonce
    .ok (saved.2, saved.1)

-- ---------------------------------------------------------------------------
-- CreateFullBackup (orchestrator_service.go, lines 193-280)
-- ---------------------------------------------------------------------------

instance {ε α : Type} [DecidableEq ε] [DecidableEq α] : DecidableEq (Except ε α) :=
  fun a b =>
    match a, b with
    | .error e1, .error e2 =>
      if h : e1 = e2 then .isTrue (by rw [h]) else .isFalse (by simp [h])
    | .ok r1, .ok r2 =>
      if h : r1 = r2 then .isTrue (by rw [h]) else .isFalse (by simp [h])
    | .error _, .ok _ => .isFalse (by simp)
    | .ok _, .error _ => .isFalse (by simp)

/-- The outcome of one per-target ExportBackup goroutine. -/
abbrev ExportOutcome := Except String ExportResult

/-- Go map assignment m[k] = v on the per-module data map: replace the value
of an existing key, otherwise add the key. -/
def mapInsert : List (String × Bytes) → String → Bytes → List (String × Bytes)
  | [], k, v => [(k, v)]
  | (k1, v1) :: rest, k, v =>
    if k1 = k then (k1, v) :: rest else (k1, v1) :: mapInsert rest k v

/-- The BackupInfo entry appended for a failed export in CreateFullBackup
(only ModuleId, Status and Warnings are set in the source). -/
def failedEntry (t : ModuleTarget) (e : String) : BackupInfo :=
  { id := "", moduleId := t.moduleId, description := "", tenantId := 0,
    fullBackup := false, status := "failed", sizeBytes := 0,
    entityCounts := [], createdAt := 0, createdBy := "", version := "",
    encrypted := false, warnings := [e] }

/-- The BackupInfo entry appended for a successful export in
CreateFullBackup. -/
def completedEntry (tenantId : Option Nat) (t : ModuleTarget) (r : ExportResult) : BackupInfo :=
  { id := "", moduleId := t.moduleId, description := "",
    tenantId := r.tenantID, fullBackup := decide (tenantId = some 0),
    status := "completed", sizeBytes := r.data.length,
    entityCounts := r.entityCounts, createdAt := 0, createdBy := "",
    version := r.version, encrypted := false, warnings := [] }

/-- Accumulator of the result-aggregation loop in CreateFullBackup. -/
structure FullBackupAgg where
  moduleBackups : List BackupInfo
  moduleData : List (String × Bytes)
  totalSize : Nat
  errors : List String
deriving DecidableEq

/-- One iteration of the aggregation loop over the index-aligned results
slice: a failed export appends a failed entry and an error string
"moduleId: err"; a successful one appends a completed entry, stores the data
under the module id and adds its size. -/
def aggStep (tenantId : Option Nat) (a : FullBackupAgg) :
    ModuleTarget × ExportOutcome → FullBackupAgg
  | (t, .error e) =>
    { a with moduleBackups := a.moduleBackups ++ [failedEntry t e],
             errors := a.errors ++ [t.moduleId ++ ": " ++ e] }
  | (t, .ok r) =>
    { a with moduleBackups := a.moduleBackups ++ [completedEntry tenantId t r],
             moduleData := mapInsert a.moduleData t.moduleId r.data,
             totalSize := a.totalSize + r.data.length }

def aggregateResults (tenantId : Option Nat)
    (results : List (ModuleTarget × ExportOutcome)) : FullBackupAgg :=
  results.foldl (aggStep tenantId) ⟨[], [], 0, []⟩

/-- Status computation at the end of CreateFullBackup: "failed" when there are
errors and as many errors as targets, "partial" when there are some errors,
"completed" otherwise. -/
def fullStatus (numTargets numErrors : Nat) : String :=
  if 0 < numErrors ∧ numErrors = numTargets then "failed"
  else if 0 < numErrors then "partial"
  else "completed"

/-- CreateFullBackup from src/internal/service/orchestrator_service.go. The
source writes each goroutine's outcome into the index-aligned slice
results[idx] and only reads it after wg.Wait, so the list of
(target, outcome) pairs given here captures every completion order of the
concurrent exports. Returns the manifest and the per-module data map handed
to SaveFullBackup. -/
def CreateFullBackup (results : List (ModuleTarget × ExportOutcome))
    (tenantId : Option Nat) (description : String) (backupID username : String)
    (now : Nat) : Except String (FullBackupInfo × List (String × Bytes)) :=
  if results.length = 0 then .error "at least one target is required"
  else
    let a := aggregateResults tenantId results
    .ok ({ id := backupID, description := description,
           tenantId := tenantId.getD 0,
           fullBackup := decide (tenantId = some 0),
           status := fullStatus results.length a.errors.length,
           totalSizeBytes := a.totalSize, moduleBackups := a.moduleBackups,
           createdAt := now, createdBy := username, errors := a.errors,
           encrypted := false }, a.moduleData)

/-- The per-module payload files written by SaveFullBackup in
src/internal/service/storage.go: one moduleId.json.gz (or .json.gz.enc when a
password is given) file per key of the moduleData map. The model shares one
salt and nonce across modules (the source draws fresh ones per file; the
claims settled here do not depend on that). -/
def saveFullBackupFiles (moduleData : List (String × Bytes))
    (password salt nonce : Bytes) : List (String × Bytes) :=
  moduleData.map (fun p =>
    if password = [] then (p.1 ++ ".json.gz", gzipCompress p.2)
    else (p.1 ++ ".json.gz.enc", encryptData (gzipCompress p.2) password salt nonce))

/-- The manifest entry produced by the aggregation loop for one
(target, outcome) pair. -/
def entryOf (tenantId : Option Nat) : ModuleTarget × ExportOutcome → BackupInfo
  | (t, .error e) => failedEntry t e
  | (t, .ok r) => completedEntry tenantId t r

/-- The error string the aggregation loop records for one pair, if any. -/
def errOf : ModuleTarget × ExportOutcome → Option String
  | (t, .error e) => some (t.moduleId ++ ": " ++ e)
  | (_, .ok _) => none

/-- The data size the aggregation loop adds for one pair, if any. -/
def okSizeOf : ModuleTarget × ExportOutcome → Option Nat
  | (_, .ok r) => some r.data.length
  | (_, .error _) => none

-- ---------------------------------------------------------------------------
-- RestoreFullBackup (orchestrator_service.go, lines 282-366)
-- ---------------------------------------------------------------------------

/-- ModuleImportResponse as consumed from the dynamic client. -/
structure ImportResp where
  success : Bool
  warnings : List String
deriving DecidableEq

/-- ModuleRestoreResult message (per-entity results elided; the claims here
concern moduleId, success and error). -/
structure ModuleRestoreResult where
  moduleId : String
  success : Bool
  error : String
  warnings : List String
deriving DecidableEq

/-- One step of building the Go map moduleId to target from req.Targets:
a later target with the same moduleId overwrites an earlier one. -/
def targetMapInsert : List (String × ModuleTarget) → ModuleTarget →
    List (String × ModuleTarget)
  | [], t => [(t.moduleId, t)]
  | (k, v) :: rest, t =>
    if k = t.moduleId then (k, t) :: rest else (k, v) :: targetMapInsert rest t

def buildTargetMap (targets : List ModuleTarget) : List (String × ModuleTarget) :=
  targets.foldl targetMapInsert []

def lookupTarget : List (String × ModuleTarget) → String → Option ModuleTarget
  | [], _ => none
  | (k, v) :: rest, id => if k = id then some v else lookupTarget rest id

/-- The per-module loop body of RestoreFullBackup, as the result it appends
for one completed manifest entry: missing target, load error and invocation
error each produce success=false with the corresponding error text; an
ImportBackup response is passed through with its own success flag. -/
def restoreResultOf (lookup : String → Option ModuleTarget)
    (loadData : String → Except String Bytes)
    (doImport : ModuleTarget → Bytes → Except String ImportResp)
    (mb : BackupInfo) : ModuleRestoreResult :=
  match lookup mb.moduleId with
  | none => ⟨mb.moduleId, false, "no target endpoint provided for this module", []⟩
  | some t =>
    match loadData mb.moduleId with
    | .error e => ⟨mb.moduleId, false, "load data: " ++ e, []⟩
    | .ok data =>
      match doImport t data with
      | .error e => ⟨mb.moduleId, false, e, []⟩
      | .ok resp => ⟨mb.moduleId, resp.success, "", resp.warnings⟩

/-- Whether the loop leaves allSuccess intact for one completed entry: the
source sets allSuccess = false only on a missing target, a load error or an
invocation error — NOT when ImportBackup succeeds with resp.Success = false. -/
def restoreBranchOk (lookup : String → Option ModuleTarget)
    (loadData : String → Except String Bytes)
    (doImport : ModuleTarget → Bytes → Except String ImportResp)
    (mb : BackupInfo) : Bool :=
  match lookup mb.moduleId with
  | none => false
  | some t =>
    match loadData mb.moduleId with
    | .error _ => false
    | .ok data =>
      match doImport t data with
      | .error _ => false
      | .ok _ => true

/-- The manifest loop of RestoreFullBackup: entries whose status is not
"completed" are skipped; the rest produce one ModuleRestoreResult each, in
manifest order, and the allSuccess flag as the source computes it. -/
def restoreModules (lookup : String → Option ModuleTarget)
    (loadData : String → Except String Bytes)
    (doImport : ModuleTarget → Bytes → Except String ImportResp) :
    List BackupInfo → Bool × List ModuleRestoreResult
  | [] => (true, [])
  | mb :: rest =>
    let r := restoreModules lookup loadData doImport rest
    if mb.status = "completed" then
      match lookup mb.moduleId with
      | none =>
        (false, ⟨mb.moduleId, false, "no target endpoint provided for this module", []⟩ :: r.2)
      | some t =>
        match loadData mb.moduleId with
        | .error e => (false, ⟨mb.moduleId, false, "load data: " ++ e, []⟩ :: r.2)
        | .ok data =>
          match doImport t data with
          | .error e => (false, ⟨mb.moduleId, false, e, []⟩ :: r.2)
          | .ok resp => (r.1, ⟨mb.moduleId, resp.success, "", resp.warnings⟩ :: r.2)
    else r

/-- RestoreFullBackup from src/internal/service/orchestrator_service.go with
the manifest (info.ModuleBackups), the storage loads and the ImportBackup
RPCs given as oracles. Returns (allSuccess, moduleResults). -/
def RestoreFullBackup (targets : List ModuleTarget) (manifest : List BackupInfo)
    (loadData : String → Except String Bytes)
    (doImport : ModuleTarget → Bytes → Except String ImportResp) :
    Except String (Bool × List ModuleRestoreResult) :=
  if targets.length = 0 then .error "at least one target is required"
  else .ok (restoreModules (lookupTarget (buildTargetMap targets)) loadData doImport manifest)

-- ---------------------------------------------------------------------------
-- Pagination (normalizePagination, ListBackups / ListFullBackups)
-- ---------------------------------------------------------------------------

/-- Two's-complement wrap of Go int32 arithmetic. -/
def wrap32 (x : Int) : Int := (x + 2 ^ 31) % 2 ^ 32 - 2 ^ 31

/-- normalizePagination from src/internal/service/orchestrator_service.go:
page defaults to 1 when non-positive; pageSize defaults to 20 when
non-positive and is capped at 100. -/
def normalizePagination (page pageSize : Int) : Int × Int :=
  let p := if page ≤ 0 then 1 else page
  let ps := if pageSize ≤ 0 then 20 else pageSize
  (p, if ps > 100 then 100 else ps)

/-- The pagination core shared by ListBackups and ListFullBackups
(orchestrator_service.go): total = int32(len(backups)); start = (page-1) *
pageSize in int32 arithmetic; when start is at least total an empty page with
the total is returned; otherwise end = min(start + pageSize, total) and the
slice backups[start:end] is taken. A Go slice expression with out-of-range
bounds panics, modelled as none. -/
def listPage {α : Type} (backups : List α) (page pageSize : Int) :
    Option (List α × Int) :=
  let total : Int := wrap32 backups.length
  let pp := normalizePagination page pageSize
  let start := wrap32 ((pp.1 - 1) * pp.2)
  if start ≥ total then
    some ([], total)
  else
    let e1 := wrap32 (start + pp.2)
    let e2 := if e1 > total then total else e1
    if 0 ≤ start ∧ start ≤ e2 ∧ e2 ≤ (backups.length : Int) then
      some ((backups.drop start.toNat).take (e2 - start).toNat, total)
    else
      none

-- ---------------------------------------------------------------------------
-- Helper lemmas: crypto envelope
-- ---------------------------------------------------------------------------

theorem keyBytes_injective : Function.Injective keyBytes := by
  intro k1 k2 h
  obtain ⟨p1, s1⟩ := k1
  obtain ⟨p2, s2⟩ := k2
  simp only [keyBytes, List.cons.injEq] at h
  obtain ⟨hl, happ⟩ := h
  obtain ⟨hp, hs⟩ := List.append_inj happ hl
  simp [hp, hs]

theorem gcmOpen_gcmSeal (key : DerivedKey) (nonce pt : Bytes) :
    gcmOpen key nonce (gcmSeal key nonce pt) = some pt := by
  simp [gcmOpen, gcmSeal]

theorem gcmOpen_gcmSeal_ne (key key' : DerivedKey) (nonce pt : Bytes)
    (h : key' ≠ key) :
    gcmOpen key' nonce (gcmSeal key nonce pt) = none := by
  have hkb : keyBytes key ≠ keyBytes key' := by
    intro hh
    exact h (keyBytes_injective hh.symm)
  simp only [gcmOpen, gcmSeal]
  rw [if_neg]
  rintro ⟨-, h2⟩
  rw [List.append_assoc, List.drop_left] at h2
  exact hkb (List.append_cancel_right h2)

theorem DecryptData_encryptData_gen (P p q salt nonce : Bytes)
    (hs : salt.length = saltSize) (hn : nonce.length = nonceSize) :
    DecryptData (encryptData P p salt nonce) q =
      match gcmOpen (pbkdf2Key q salt) nonce (gcmSeal (pbkdf2Key p salt) nonce P) with
      | some pt => .ok pt
      | none => .error "decryption failed (wrong password or corrupted data)" := by
  have e1 : (salt ++ (nonce ++ gcmSeal (pbkdf2Key p salt) nonce P)).take saltSize = salt := by
    rw [← hs]
    exact List.take_left _ _
  have e2 : (salt ++ (nonce ++ gcmSeal (pbkdf2Key p salt) nonce P)).drop saltSize =
      nonce ++ gcmSeal (pbkdf2Key p salt) nonce P := by
    rw [← hs]
    exact List.drop_left _ _
  have e3 : (nonce ++ gcmSeal (pbkdf2Key p salt) nonce P).take nonceSize = nonce := by
    rw [← hn]
    exact List.take_left _ _
  have e4 : (salt ++ (nonce ++ gcmSeal (pbkdf2Key p salt) nonce P)).drop
      (saltSize + nonceSize) = gcmSeal (pbkdf2Key p salt) nonce P := by
    rw [← List.append_assoc, ← hs, ← hn, ← List.length_append]
    exact List.drop_left _ _
  have hlen : ¬ (salt ++ (nonce ++ gcmSeal (pbkdf2Key p salt) nonce P)).length <
      saltSize + nonceSize + 1 := by
    simp only [List.length_append, hs, hn, gcmSeal, List.length_cons]
    omega
  unfold DecryptData encryptData
  rw [List.append_assoc, if_neg hlen]
  simp only [e1, e2, e3, e4]

theorem DecryptData_encryptData (P p salt nonce : Bytes)
    (hs : salt.length = saltSize) (hn : nonce.length = nonceSize) :
    DecryptData (encryptData P p salt nonce) p = .ok P := by
  rw [DecryptData_encryptData_gen P p p salt nonce hs hn, gcmOpen_gcmSeal]

theorem gzipDecompress_gzipCompress (d : Bytes) :
    gzipDecompress (gzipCompress d) = .ok d := by
  simp [gzipCompress, gzipDecompress]

theorem storeLookup_storeInsert_self (st : ModuleStore) (id : String)
    (f : ModuleBackupFiles) :
    storeLookup (storeInsert st id f) id = some f := by
  induction st with
  | nil => simp [storeInsert, storeLookup]
  | cons kv rest ih =>
    obtain ⟨k, v⟩ := kv
    by_cases h : k = id <;> simp [storeInsert, storeLookup, h, ih]

-- ---------------------------------------------------------------------------
-- C5
-- ---------------------------------------------------------------------------

/-- C5: for every plaintext P and password p (with salt and nonce of the sizes
the RNG draws), DecryptData(encryptData(P, p), p) = P, and for every wrong
password q, DecryptData(encryptData(P, p), q) fails with the CryptoError
outcome "decryption failed (wrong password or corrupted data)". -/
theorem decrypt_encrypt (P p q salt nonce : Bytes)
    (hs : salt.length = saltSize) (hn : nonce.length = nonceSize) :
    DecryptData (encryptData P p salt nonce) p = .ok P ∧
    (q ≠ p → DecryptData (encryptData P p salt nonce) q =
      .error "decryption failed (wrong password or corrupted data)") := by
  refine ⟨DecryptData_encryptData P p salt nonce hs hn, fun hq => ?_⟩
  rw [DecryptData_encryptData_gen P p q salt nonce hs hn,
    gcmOpen_gcmSeal_ne _ _ _ _ (fun hk => hq (congrArg DerivedKey.password hk))]

theorem decrypt_encrypt_witness :
    (List.replicate 32 0).length = saltSize ∧
    (List.replicate 12 0).length = nonceSize ∧
    ([] : Bytes) ≠ [7] ∧
    DecryptData (encryptData [1, 2] [7] (List.replicate 32 0) (List.replicate 12 0)) [7]
      = .ok [1, 2] ∧
    DecryptData (encryptData [1, 2] [7] (List.replicate 32 0) (List.replicate 12 0)) []
      = .error "decryption failed (wrong password or corrupted data)" :=
  ⟨by decide, by decide, by decide,
   (decrypt_encrypt [1, 2] [7] [] (List.replicate 32 0) (List.replicate 12 0)
     (by decide) (by decide)).1,
   (decrypt_encrypt [1, 2] [7] [] (List.replicate 32 0) (List.replicate 12 0)
     (by decide) (by decide)).2 (by decide)⟩

-- ---------------------------------------------------------------------------
-- C6
-- ---------------------------------------------------------------------------

/-- C6: DecryptData returns the truncation CryptoError on every envelope
shorter than 45 bytes without attempting decryption, and returns the
CryptoError outcome whenever the GCM tag check (gcmOpen) fails on the parsed
envelope. -/
theorem decryptData_truncation_and_tag (env pw : Bytes) :
    (env.length < 45 → DecryptData env pw = .error "encrypted data too short") ∧
    (45 ≤ env.length →
      gcmOpen (pbkdf2Key pw (env.take saltSize)) ((env.drop saltSize).take nonceSize)
        (env.drop (saltSize + nonceSize)) = none →
      DecryptData env pw = .error "decryption failed (wrong password or corrupted data)") := by
  constructor
  · intro h
    unfold DecryptData
    rw [if_pos]
    show env.length < 45
    exact h
  · intro h hopen
    unfold DecryptData
    rw [if_neg (by
      have h45 : saltSize + nonceSize + 1 = 45 := rfl
      omega : ¬ env.length < saltSize + nonceSize + 1)]
    simp only [hopen]

theorem decryptData_truncation_witness :
    ([] : Bytes).length < 45 ∧
    DecryptData [] [] = .error "encrypted data too short" ∧
    45 ≤ (List.replicate 45 0).length ∧
    gcmOpen (pbkdf2Key [] ((List.replicate 45 0).take saltSize))
      (((List.replicate 45 0).drop saltSize).take nonceSize)
      ((List.replicate 45 0).drop (saltSize + nonceSize)) = none ∧
    DecryptData (List.replicate 45 0) [] =
      .error "decryption failed (wrong password or corrupted data)" :=
  ⟨by decide, (decryptData_truncation_and_tag [] []).1 (by decide), by decide, by decide,
   (decryptData_truncation_and_tag (List.replicate 45 0) []).2 (by decide) (by decide)⟩

-- ---------------------------------------------------------------------------
-- C2
-- ---------------------------------------------------------------------------

/-- C2: for every payload P and every password (the empty one included),
saving a fresh module backup and loading it back with the same password
returns exactly P: the gzip pipeline and, for a non-empty password, the
encrypt/decrypt pipeline round-trip byte-exactly. -/
theorem save_load_roundtrip (st : ModuleStore) (info : BackupInfo)
    (P password salt nonce : Bytes) (hfresh : storeLookup st info.id = none)
    (hs : salt.length = saltSize) (hn : nonce.length = nonceSize) :
    LoadModuleBackupData (SaveModuleBackup st info P password salt nonce).1
      info.id password = .ok P := by
  by_cases hp : password = []
  · simp [SaveModuleBackup, LoadModuleBackupData, hp, hfresh,
      storeLookup_storeInsert_self, emptyFiles, gzipDecompress_gzipCompress]
  · simp [SaveModuleBackup, LoadModuleBackupData, hp, hfresh,
      storeLookup_storeInsert_self, emptyFiles,
      DecryptData_encryptData (gzipCompress P) password salt nonce hs hn,
      gzipDecompress_gzipCompress]

theorem save_load_roundtrip_witness :
    storeLookup ([] : ModuleStore) "b1" = none ∧
    (List.replicate 32 0).length = saltSize ∧
    (List.replicate 12 0).length = nonceSize ∧
    LoadModuleBackupData
      (SaveModuleBackup ([] : ModuleStore)
        ⟨"b1", "users", "", 0, false, "completed", 1, [], 0, "u", "", false, []⟩
        [5] [9] (List.replicate 32 0) (List.replicate 12 0)).1
      "b1" [9] = .ok [5] :=
  ⟨rfl, by decide, by decide,
   save_load_roundtrip ([] : ModuleStore)
     ⟨"b1", "users", "", 0, false, "completed", 1, [], 0, "u", "", false, []⟩
     [5] [9] (List.replicate 32 0) (List.replicate 12 0) rfl (by decide) (by decide)⟩

-- ---------------------------------------------------------------------------
-- Helper lemmas: CreateFullBackup aggregation
-- ---------------------------------------------------------------------------

theorem foldl_aggStep (tid : Option Nat) (rs : List (ModuleTarget × ExportOutcome)) :
    ∀ a : FullBackupAgg,
      (rs.foldl (aggStep tid) a).moduleBackups = a.moduleBackups ++ rs.map (entryOf tid) ∧
      (rs.foldl (aggStep tid) a).errors = a.errors ++ rs.filterMap errOf ∧
      (rs.foldl (aggStep tid) a).totalSize = a.totalSize + (rs.filterMap okSizeOf).sum := by
  induction rs with
  | nil => intro a; simp
  | cons x rest ih =>
    intro a
    obtain ⟨t, o⟩ := x
    rw [List.foldl_cons]
    obtain ⟨h1, h2, h3⟩ := ih (aggStep tid a (t, o))
    cases o with
    | error e =>
      simp only [aggStep] at h1 h2 h3 ⊢
      refine ⟨?_, ?_, ?_⟩ <;>
        simp [h1, h2, h3, entryOf, errOf, okSizeOf]
    | ok r =>
      simp only [aggStep] at h1 h2 h3 ⊢
      refine ⟨?_, ?_, ?_⟩ <;>
        simp [h1, h2, h3, entryOf, errOf, okSizeOf, Nat.add_assoc]

theorem aggregate_moduleBackups (tid : Option Nat)
    (rs : List (ModuleTarget × ExportOutcome)) :
    (aggregateResults tid rs).moduleBackups = rs.map (entryOf tid) := by
  have h := (foldl_aggStep tid rs ⟨[], [], 0, []⟩).1
  simpa [aggregateResults] using h

theorem aggregate_errors (tid : Option Nat)
    (rs : List (ModuleTarget × ExportOutcome)) :
    (aggregateResults tid rs).errors = rs.filterMap errOf := by
  have h := (foldl_aggStep tid rs ⟨[], [], 0, []⟩).2.1
  simpa [aggregateResults] using h

theorem aggregate_totalSize (tid : Option Nat)
    (rs : List (ModuleTarget × ExportOutcome)) :
    (aggregateResults tid rs).totalSize = (rs.filterMap okSizeOf).sum := by
  have h := (foldl_aggStep tid rs ⟨[], [], 0, []⟩).2.2
  simpa [aggregateResults] using h

theorem length_filterMap_eq_length_iff {α β : Type} (f : α → Option β) (l : List α) :
    (l.filterMap f).length = l.length ↔ ∀ x ∈ l, (f x).isSome := by
  induction l with
  | nil => simp
  | cons x rest ih =>
    cases h : f x with
    | none =>
      have hle := List.length_filterMap_le f rest
      simp [List.filterMap_cons, h]
      omega
    | some b =>
      simp [List.filterMap_cons, h, ih]

theorem filtered_completed_sizes (tid : Option Nat)
    (rs : List (ModuleTarget × ExportOutcome)) :
    (((rs.map (entryOf tid)).filter (fun b => b.status == "completed")).map
      (fun b => b.sizeBytes)).sum = (rs.filterMap okSizeOf).sum := by
  induction rs with
  | nil => rfl
  | cons x rest ih =>
    obtain ⟨t, o⟩ := x
    cases o with
    | error e =>
      simp [entryOf, okSizeOf, failedEntry, List.filter_cons, ih]
    | ok r =>
      simp [entryOf, okSizeOf, completedEntry, List.filter_cons, ih]

theorem errOf_eq_none_iff (r : ModuleTarget × ExportOutcome) :
    errOf r = none ↔ ∃ x, r.2 = .ok x := by
  obtain ⟨t, o⟩ := r
  cases o <;> simp [errOf]

theorem errOf_isSome_iff (r : ModuleTarget × ExportOutcome) :
    (errOf r).isSome ↔ ∃ e, r.2 = .error e := by
  obtain ⟨t, o⟩ := r
  cases o <;> simp [errOf]

-- ---------------------------------------------------------------------------
-- C3
-- ---------------------------------------------------------------------------

/-- C3: for every non-empty list of per-target export outcomes, the manifest
status is "completed" iff every export succeeded and "failed" iff every
export failed, with "partial" in every remaining case; and totalSizeBytes is
exactly the sum of the sizeBytes of the completed manifest entries. -/
theorem createFullBackup_status (results : List (ModuleTarget × ExportOutcome))
    (tid : Option Nat) (d bid u : String) (now : Nat) (hne : results ≠ []) :
    ∃ info md, CreateFullBackup results tid d bid u now = .ok (info, md) ∧
      (info.status = "completed" ↔ ∀ r ∈ results, ∃ x, r.2 = .ok x) ∧
      (info.status = "failed" ↔ ∀ r ∈ results, ∃ e, r.2 = .error e) ∧
      ((¬ ∀ r ∈ results, ∃ x, r.2 = .ok x) → (¬ ∀ r ∈ results, ∃ e, r.2 = .error e) →
        info.status = "partial") ∧
      info.totalSizeBytes =
        ((info.moduleBackups.filter (fun b => b.status == "completed")).map
          (fun b => b.sizeBytes)).sum := by
  have hlen0 : ¬ results.length = 0 := by
    simpa [List.length_eq_zero] using hne
  have hA : (results.filterMap errOf).length = 0 ↔ ∀ r ∈ results, ∃ x, r.2 = .ok x := by
    rw [List.length_eq_zero, List.filterMap_eq_nil_iff]
    exact ⟨fun h r hr => (errOf_eq_none_iff r).1 (h r hr),
           fun h r hr => (errOf_eq_none_iff r).2 (h r hr)⟩
  have hB : (results.filterMap errOf).length = results.length ↔
      ∀ r ∈ results, ∃ e, r.2 = .error e := by
    rw [length_filterMap_eq_length_iff]
    exact ⟨fun h r hr => (errOf_isSome_iff r).1 (h r hr),
           fun h r hr => (errOf_isSome_iff r).2 (h r hr)⟩
  unfold CreateFullBackup
  rw [if_neg hlen0]
  refine ⟨_, _, rfl, ?_, ?_, ?_, ?_⟩ <;>
    simp only [aggregate_errors, aggregate_moduleBackups, aggregate_totalSize]
  · unfold fullStatus
    split
    · rename_i hcond
      constructor
      · intro hs
        exact absurd hs (by decide)
      · intro hall
        have : (results.filterMap errOf).length = 0 := hA.2 hall
        omega
    · split
      · rename_i hcond hpos
        constructor
        · intro hs
          exact absurd hs (by decide)
        · intro hall
          have : (results.filterMap errOf).length = 0 := hA.2 hall
          omega
      · rename_i hcond hpos
        constructor
        · intro _
          apply hA.1
          omega
        · intro _
          rfl
  · unfold fullStatus
    split
    · rename_i hcond
      constructor
      · intro _
        exact hB.1 hcond.2
      · intro _
        rfl
    · split <;> rename_i h1 h2
      · constructor
        · intro hs
          exact absurd hs (by decide)
        · intro hall
          have := hB.2 hall
          omega
      · constructor
        · intro hs
          exact absurd hs (by decide)
        · intro hall
          have := hB.2 hall
          omega
  · intro hnok hnall
    unfold fullStatus
    have hk0 : ¬ (results.filterMap errOf).length = 0 := fun h => hnok (hA.1 h)
    have hkn : ¬ (results.filterMap errOf).length = results.length :=
      fun h => hnall (hB.1 h)
    rw [if_neg (by omega), if_pos (by omega)]
  · exact (filtered_completed_sizes tid results).symm

theorem createFullBackup_status_witness :
    ([((⟨"users", "u:7000"⟩ : ModuleTarget),
       (.ok ⟨[1, 2], "users", "v1", 5, []⟩ : ExportOutcome))] ≠ []) ∧
    (∃ info md,
      CreateFullBackup
        [((⟨"users", "u:7000"⟩ : ModuleTarget),
          (.ok ⟨[1, 2], "users", "v1", 5, []⟩ : ExportOutcome))]
        (some 5) "" "fb" "admin" 0 = .ok (info, md) ∧
      (info.status = "completed" ↔ ∀ r ∈ [((⟨"users", "u:7000"⟩ : ModuleTarget),
          (.ok ⟨[1, 2], "users", "v1", 5, []⟩ : ExportOutcome))], ∃ x, r.2 = .ok x) ∧
      (info.status = "failed" ↔ ∀ r ∈ [((⟨"users", "u:7000"⟩ : ModuleTarget),
          (.ok ⟨[1, 2], "users", "v1", 5, []⟩ : ExportOutcome))], ∃ e, r.2 = .error e) ∧
      ((¬ ∀ r ∈ [((⟨"users", "u:7000"⟩ : ModuleTarget),
          (.ok ⟨[1, 2], "users", "v1", 5, []⟩ : ExportOutcome))], ∃ x, r.2 = .ok x) →
       (¬ ∀ r ∈ [((⟨"users", "u:7000"⟩ : ModuleTarget),
          (.ok ⟨[1, 2], "users", "v1", 5, []⟩ : ExportOutcome))], ∃ e, r.2 = .error e) →
        info.status = "partial") ∧
      info.totalSizeBytes =
        ((info.moduleBackups.filter (fun b => b.status == "completed")).map
          (fun b => b.sizeBytes)).sum) :=
  ⟨by decide,
   createFullBackup_status
     [((⟨"users", "u:7000"⟩ : ModuleTarget),
       (.ok ⟨[1, 2], "users", "v1", 5, []⟩ : ExportOutcome))]
     (some 5) "" "fb" "admin" 0 (by decide)⟩

-- ---------------------------------------------------------------------------
-- C8
-- ---------------------------------------------------------------------------

/-- C8: the manifest's moduleBackups list carries exactly one entry per
requested target, index-aligned with the target list (equal moduleId at every
position), for every assignment of export outcomes — the results slice is
written at the target's index by each goroutine, so this holds regardless of
completion order. -/
theorem createFullBackup_order (results : List (ModuleTarget × ExportOutcome))
    (tid : Option Nat) (d bid u : String) (now : Nat) (hne : results ≠ []) :
    ∃ info md, CreateFullBackup results tid d bid u now = .ok (info, md) ∧
      info.moduleBackups.map (fun b => b.moduleId) =
        results.map (fun r => r.1.moduleId) := by
  have hlen0 : ¬ results.length = 0 := by
    simpa [List.length_eq_zero] using hne
  unfold CreateFullBackup
  rw [if_neg hlen0]
  refine ⟨_, _, rfl, ?_⟩
  simp only [aggregate_moduleBackups, List.map_map]
  have hfun : ((fun b : BackupInfo => b.moduleId) ∘ entryOf tid) =
      fun r : ModuleTarget × ExportOutcome => r.1.moduleId := by
    funext x
    obtain ⟨t, o⟩ := x
    cases o <;> rfl
  rw [hfun]

theorem createFullBackup_order_witness :
    ([((⟨"users", "u:7000"⟩ : ModuleTarget), (.error "boom" : ExportOutcome)),
      ((⟨"iam", "i:7000"⟩ : ModuleTarget),
       (.ok ⟨[9], "iam", "v1", 0, []⟩ : ExportOutcome))] ≠ []) ∧
    (∃ info md,
      CreateFullBackup
        [((⟨"users", "u:7000"⟩ : ModuleTarget), (.error "boom" : ExportOutcome)),
         ((⟨"iam", "i:7000"⟩ : ModuleTarget),
          (.ok ⟨[9], "iam", "v1", 0, []⟩ : ExportOutcome))]
        none "" "fb" "admin" 0 = .ok (info, md) ∧
      info.moduleBackups.map (fun b => b.moduleId) =
        [((⟨"users", "u:7000"⟩ : ModuleTarget), (.error "boom" : ExportOutcome)),
         ((⟨"iam", "i:7000"⟩ : ModuleTarget),
          (.ok ⟨[9], "iam", "v1", 0, []⟩ : ExportOutcome))].map
          (fun r => r.1.moduleId)) :=
  ⟨by decide,
   createFullBackup_order
     [((⟨"users", "u:7000"⟩ : ModuleTarget), (.error "boom" : ExportOutcome)),
      ((⟨"iam", "i:7000"⟩ : ModuleTarget),
       (.ok ⟨[9], "iam", "v1", 0, []⟩ : ExportOutcome))]
     none "" "fb" "admin" 0 (by decide)⟩

-- ---------------------------------------------------------------------------
-- C10
-- ---------------------------------------------------------------------------

/-- C10: concrete run of CreateFullBackup with two targets sharing moduleId
"users", both exports succeeding (sizes 3 and 2): the manifest holds two
completed entries and totalSizeBytes counts both (5), yet the per-module data
map keeps a single key — the second export overwrote the first — so
SaveFullBackup writes exactly one payload file for that moduleId. -/
theorem duplicate_moduleId_single_payload :
    CreateFullBackup
      [((⟨"users", "u1:7000"⟩ : ModuleTarget),
        (.ok ⟨[1, 2, 3], "users", "v1", 0, []⟩ : ExportOutcome)),
       ((⟨"users", "u2:7000"⟩ : ModuleTarget),
        (.ok ⟨[4, 5], "users", "v1", 0, []⟩ : ExportOutcome))]
      none "" "fb1" "admin" 0
      = .ok ({ id := "fb1", description := "", tenantId := 0, fullBackup := false,
               status := "completed", totalSizeBytes := 5,
               moduleBackups :=
                 [completedEntry none ⟨"users", "u1:7000"⟩ ⟨[1, 2, 3], "users", "v1", 0, []⟩,
                  completedEntry none ⟨"users", "u2:7000"⟩ ⟨[4, 5], "users", "v1", 0, []⟩],
               createdAt := 0, createdBy := "admin", errors := [], encrypted := false },
             [("users", [4, 5])]) ∧
    (completedEntry none (⟨"users", "u1:7000"⟩ : ModuleTarget)
      ⟨[1, 2, 3], "users", "v1", 0, []⟩).status = "completed" ∧
    (completedEntry none (⟨"users", "u2:7000"⟩ : ModuleTarget)
      ⟨[4, 5], "users", "v1", 0, []⟩).status = "completed" ∧
    ([("users", ([4, 5] : Bytes))].length = 1) ∧
    ((saveFullBackupFiles [("users", [4, 5])] [] [] []).length = 1) := by
  refine ⟨?_, rfl, rfl, rfl, rfl⟩
  decide

-- ---------------------------------------------------------------------------
-- C1
-- ---------------------------------------------------------------------------

/-- C1 (code evaluation at the failing input): when the ExportBackup RPC
fails, CreateModuleBackup returns success (no error) with a status="failed"
BackupInfo whose warnings hold exactly the RPC error message — but the
storage state it returns is the UNCHANGED input store: the error branch never
persists a metadata record, although the source's own comment ("Save a failed
backup record") and the claim say one is saved. -/
theorem createModuleBackup_export_failure (e : String) (t : ModuleTarget)
    (tid : Option Nat) (d : String) (pw : Bytes) (bid u : String) (now : Nat)
    (st : ModuleStore) (salt nonce : Bytes) :
    ∃ info, CreateModuleBackup (.error e) t tid d pw bid u now st salt nonce
        = .ok (info, st) ∧ info.status = "failed" ∧ info.warnings = [e] :=
  ⟨_, rfl, rfl, rfl⟩

-- ---------------------------------------------------------------------------
-- Helper lemmas: RestoreFullBackup loop
-- ---------------------------------------------------------------------------

theorem restoreModules_spec (lookup : String → Option ModuleTarget)
    (loadData : String → Except String Bytes)
    (doImport : ModuleTarget → Bytes → Except String ImportResp)
    (manifest : List BackupInfo) :
    restoreModules lookup loadData doImport manifest =
      ((manifest.filter (fun mb => mb.status == "completed")).all
         (restoreBranchOk lookup loadData doImport),
       (manifest.filter (fun mb => mb.status == "completed")).map
         (restoreResultOf lookup loadData doImport)) := by
  induction manifest with
  | nil => rfl
  | cons mb rest ih =>
    by_cases h : mb.status = "completed"
    · cases hl : lookup mb.moduleId with
      | none =>
        simp [restoreModules, ih, h, List.filter_cons, restoreResultOf,
          restoreBranchOk, hl]
      | some t =>
        cases hd : loadData mb.moduleId with
        | error e =>
          simp [restoreModules, ih, h, List.filter_cons, restoreResultOf,
            restoreBranchOk, hl, hd]
        | ok data =>
          cases hi : doImport t data with
          | error e =>
            simp [restoreModules, ih, h, List.filter_cons, restoreResultOf,
              restoreBranchOk, hl, hd, hi]
          | ok resp =>
            simp [restoreModules, ih, h, List.filter_cons, restoreResultOf,
              restoreBranchOk, hl, hd, hi]
    · simp [restoreModules, ih, h, List.filter_cons]

-- ---------------------------------------------------------------------------
-- C4
-- ---------------------------------------------------------------------------

/-- C4 counterexample: one completed manifest entry for module "a" with a
matching target, a successful load, and an ImportBackup call that succeeds at
the RPC level but reports success=false: the per-module result has
success=false, yet the response's overall success stays true — the overall
success is NOT the conjunction of the per-module successes. -/
theorem restoreFullBackup_conjunction_counterexample :
    RestoreFullBackup [⟨"a", "ep"⟩]
      [⟨"", "a", "", 0, false, "completed", 0, [], 0, "", "", false, []⟩]
      (fun _ => .ok [])
      (fun _ _ => .ok ⟨false, []⟩)
      = .ok (true, [⟨"a", false, "", []⟩]) ∧
    ([(⟨"a", false, "", []⟩ : ModuleRestoreResult)].all (fun r => r.success)) = false := by
  exact ⟨rfl, rfl⟩

/-- C4 (amended): RestoreFullBackup processes exactly the manifest entries
with status "completed", in manifest order; a processed entry whose moduleId
has no matching target yields success=false with error exactly "no target
endpoint provided for this module"; the overall success is true iff no
processed entry hit a missing target, a load error or an import invocation
error (an ImportBackup response with success=false leaves it untouched); and
it is true when the manifest contains no completed entries. -/
theorem restoreFullBackup_amended (targets : List ModuleTarget)
    (manifest : List BackupInfo) (loadData : String → Except String Bytes)
    (doImport : ModuleTarget → Bytes → Except String ImportResp)
    (hne : targets ≠ []) :
    ∃ ok rs, RestoreFullBackup targets manifest loadData doImport = .ok (ok, rs) ∧
      rs = (manifest.filter (fun mb => mb.status == "completed")).map
             (restoreResultOf (lookupTarget (buildTargetMap targets)) loadData doImport) ∧
      (∀ mb ∈ manifest, mb.status = "completed" →
        lookupTarget (buildTargetMap targets) mb.moduleId = none →
        (⟨mb.moduleId, false, "no target endpoint provided for this module", []⟩ :
          ModuleRestoreResult) ∈ rs) ∧
      ok = (manifest.filter (fun mb => mb.status == "completed")).all
             (restoreBranchOk (lookupTarget (buildTargetMap targets)) loadData doImport) ∧
      (manifest.filter (fun mb => mb.status == "completed") = [] → ok = true) := by
  have hlen0 : ¬ targets.length = 0 := by
    simpa [List.length_eq_zero] using hne
  unfold RestoreFullBackup
  rw [if_neg hlen0, restoreModules_spec]
  refine ⟨_, _, rfl, rfl, ?_, rfl, ?_⟩
  · intro mb hmb hst hlk
    have hmem : mb ∈ manifest.filter (fun mb => mb.status == "completed") :=
      List.mem_filter.2 ⟨hmb, by simp [hst]⟩
    have hres : restoreResultOf (lookupTarget (buildTargetMap targets)) loadData doImport mb =
        ⟨mb.moduleId, false, "no target endpoint provided for this module", []⟩ := by
      simp [restoreResultOf, hlk]
    exact hres ▸ List.mem_map_of_mem _ hmem
  · intro hemp
    rw [hemp]
    rfl

theorem restoreFullBackup_amended_witness :
    ([(⟨"a", "ep"⟩ : ModuleTarget)] ≠ []) ∧
    (∃ ok rs, RestoreFullBackup [⟨"a", "ep"⟩] ([] : List BackupInfo)
        (fun _ => .ok []) (fun _ _ => .ok ⟨true, []⟩) = .ok (ok, rs) ∧
      rs = (([] : List BackupInfo).filter (fun mb => mb.status == "completed")).map
             (restoreResultOf (lookupTarget (buildTargetMap [⟨"a", "ep"⟩]))
               (fun _ => .ok []) (fun _ _ => .ok ⟨true, []⟩)) ∧
      (∀ mb ∈ ([] : List BackupInfo), mb.status = "completed" →
        lookupTarget (buildTargetMap [⟨"a", "ep"⟩]) mb.moduleId = none →
        (⟨mb.moduleId, false, "no target endpoint provided for this module", []⟩ :
          ModuleRestoreResult) ∈ rs) ∧
      ok = (([] : List BackupInfo).filter (fun mb => mb.status == "completed")).all
             (restoreBranchOk (lookupTarget (buildTargetMap [⟨"a", "ep"⟩]))
               (fun _ => .ok []) (fun _ _ => .ok ⟨true, []⟩)) ∧
      (([] : List BackupInfo).filter (fun mb => mb.status == "completed") = [] →
        ok = true)) :=
  ⟨List.cons_ne_nil _ _,
   restoreFullBackup_amended [⟨"a", "ep"⟩] [] (fun _ => .ok [])
     (fun _ _ => .ok ⟨true, []⟩) (List.cons_ne_nil _ _)⟩

-- ---------------------------------------------------------------------------
-- Helper lemmas: pagination
-- ---------------------------------------------------------------------------

theorem wrap32_eq_self (x : Int) (h0 : -(2 ^ 31) ≤ x) (h1 : x < 2 ^ 31) :
    wrap32 x = x := by
  unfold wrap32
  rw [Int.emod_eq_of_lt (by omega) (by omega)]
  omega

theorem normalizePagination_bounds (page pageSize : Int) :
    1 ≤ (normalizePagination page pageSize).1 ∧
    1 ≤ (normalizePagination page pageSize).2 ∧
    (normalizePagination page pageSize).2 ≤ 100 := by
  unfold normalizePagination
  by_cases h1 : page ≤ 0 <;> by_cases h2 : pageSize ≤ 0 <;>
    simp [h1, h2] <;> (try split_ifs) <;> omega

-- ---------------------------------------------------------------------------
-- C7
-- ---------------------------------------------------------------------------

/-- C7 counterexample: with page = 2147483647 (max int32) and pageSize = 100
on an empty store, the normalized int32 product (page-1)*pageSize wraps to
-200, so the empty-page branch is not taken and the slice bounds are
negative: the code panics (none) instead of returning the empty item list
with total 0 that the claim demands for every page and pageSize. -/
theorem listPage_overflow_counterexample :
    listPage ([] : List Nat) 2147483647 100 = none := by decide

/-- C7 (amended): whenever the normalized (page-1)*pageSize does not overflow
int32 (and the store is small enough for int32 totals, length + 100 < 2^31),
page is normalized to 1 when non-positive, pageSize to 20 when non-positive
and to 100 when above 100; the call returns (no panic) with total equal to
the pre-pagination count, and an empty item list whenever start is at least
the total. -/
theorem listPage_amended {α : Type} (backups : List α) (page pageSize : Int)
    (hlen : (backups.length : Int) + 100 < 2 ^ 31)
    (hof : ((normalizePagination page pageSize).1 - 1) *
             (normalizePagination page pageSize).2 < 2 ^ 31) :
    ((page ≤ 0 → (normalizePagination page pageSize).1 = 1) ∧
     (pageSize ≤ 0 → (normalizePagination page pageSize).2 = 20) ∧
     (100 < pageSize → (normalizePagination page pageSize).2 = 100)) ∧
    (∃ items, listPage backups page pageSize = some (items, (backups.length : Int)) ∧
      (((normalizePagination page pageSize).1 - 1) *
          (normalizePagination page pageSize).2 ≥ (backups.length : Int) →
        items = [])) := by
  obtain ⟨hp1, hps1, hps100⟩ := normalizePagination_bounds page pageSize
  constructor
  · refine ⟨fun h => ?_, fun h => ?_, fun h => ?_⟩
    · simp [normalizePagination, h]
    · simp [normalizePagination, h]
    · have h0 : ¬ pageSize ≤ 0 := by omega
      simp [normalizePagination, h0, h]
  · simp only [listPage]
    set p := (normalizePagination page pageSize).1 with hp
    set ps := (normalizePagination page pageSize).2 with hps
    have hlen0 : (0 : Int) ≤ backups.length := Int.ofNat_nonneg _
    have htot : wrap32 backups.length = backups.length :=
      wrap32_eq_self _ (by omega) (by omega)
    have hstart0 : 0 ≤ (p - 1) * ps := mul_nonneg (by omega) (by omega)
    have hstart : wrap32 ((p - 1) * ps) = (p - 1) * ps :=
      wrap32_eq_self _ (by omega) hof
    rw [htot, hstart]
    by_cases hge : (p - 1) * ps ≥ (backups.length : Int)
    · rw [if_pos hge]
      exact ⟨[], rfl, fun _ => rfl⟩
    · rw [if_neg hge]
      have hlt : (p - 1) * ps < (backups.length : Int) := by omega
      have he1 : wrap32 ((p - 1) * ps + ps) = (p - 1) * ps + ps :=
        wrap32_eq_self _ (by omega) (by omega)
      rw [he1]
      rw [if_pos (by split_ifs <;> omega :
        0 ≤ (p - 1) * ps ∧
        (p - 1) * ps ≤ (if (p - 1) * ps + ps > (backups.length : Int)
          then (backups.length : Int) else (p - 1) * ps + ps) ∧
        (if (p - 1) * ps + ps > (backups.length : Int)
          then (backups.length : Int) else (p - 1) * ps + ps) ≤ (backups.length : Int))]
      exact ⟨_, rfl, fun hcon => absurd hcon (by omega)⟩

theorem listPage_amended_witness :
    ((([0, 1, 2] : List Nat).length : Int) + 100 < 2 ^ 31) ∧
    (((normalizePagination 2 2).1 - 1) * (normalizePagination 2 2).2 < 2 ^ 31) ∧
    (((2 : Int) ≤ 0 → (normalizePagination 2 2).1 = 1) ∧
     ((2 : Int) ≤ 0 → (normalizePagination 2 2).2 = 20) ∧
     ((100 : Int) < 2 → (normalizePagination 2 2).2 = 100)) ∧
    (∃ items, listPage ([0, 1, 2] : List Nat) 2 2 =
        some (items, (([0, 1, 2] : List Nat).length : Int)) ∧
      (((normalizePagination 2 2).1 - 1) * (normalizePagination 2 2).2 ≥
          (([0, 1, 2] : List Nat).length : Int) → items = [])) :=
  ⟨by decide, by decide, (listPage_amended [0, 1, 2] 2 2 (by decide) (by decide)).1,
   (listPage_amended [0, 1, 2] 2 2 (by decide) (by decide)).2⟩

-- ---------------------------------------------------------------------------
-- C9
-- ---------------------------------------------------------------------------

/-- C9: unmarshalWithFallback returns the canonical (protojson) parse when it
succeeds, consults the legacy parser only when the canonical parse fails, and
returns an error exactly when both representations fail to parse. -/
theorem unmarshalWithFallback_spec {M : Type} (pj lj : Bytes → Option M) (d : Bytes) :
    (∀ m, pj d = some m → unmarshalWithFallback pj lj d = .ok m) ∧
    (pj d = none → ∀ m, lj d = some m → unmarshalWithFallback pj lj d = .ok m) ∧
    ((∃ e, unmarshalWithFallback pj lj d = .error e) ↔ pj d = none ∧ lj d = none) := by
  refine ⟨?_, ?_, ?_⟩
  · intro m h
    simp [unmarshalWithFallback, h]
  · intro h1 m h2
    simp [unmarshalWithFallback, h1, h2]
  · constructor
    · rintro ⟨e, he⟩
      cases hpj : pj d with
      | some m => simp [unmarshalWithFallback, hpj] at he
      | none =>
        cases hlj : lj d with
        | some m => simp [unmarshalWithFallback, hpj, hlj] at he
        | none => exact ⟨rfl, rfl⟩
    · rintro ⟨h1, h2⟩
      exact ⟨"unmarshal (both protojson and json failed)",
        by simp [unmarshalWithFallback, h1, h2]⟩

theorem unmarshalWithFallback_witness :
    ((fun _ : Bytes => (none : Option Nat)) [] = none) ∧
    ((fun _ : Bytes => (some 5 : Option Nat)) [] = some 5) ∧
    unmarshalWithFallback (fun _ : Bytes => (none : Option Nat))
      (fun _ : Bytes => (some 5 : Option Nat)) [] = .ok 5 :=
  ⟨rfl, rfl,
   (unmarshalWithFallback_spec (fun _ => none) (fun _ => some 5) []).2.1 rfl 5 rfl⟩

end TangraBackup
